import Mathlib

/-!
# Verification of the supervisor/agent orchestration core

Shallow embedding of the TypeScript sources:
- `src/agents/types.ts` (input union, routing-decision schema),
- `src/agents/supervisorAgent.ts` (enhanced supervisor: normalization,
  routing classification with heuristic fallback, dispatch, metadata
  assembly; single- and batch-audio processing),
- `src/agents/directAgent.ts`, `src/agents/ragAgent.ts` (sub-agents),
- `src/routes/agents.ts` (`POST /agents/supervisor/stream` event protocol),
- `src/services/realtimeAudioService.ts` (event-driven batch accumulator).

External services (model completion, speech-to-text, conversation minting)
are parameters of the embedding (an `Oracle` record); every external call
made by the code is recorded in an explicit trace (`ExtCall` list) so that
"never calls the model" style properties are provable.

Audio byte buffers are modelled as `List Nat`; JS `Buffer.concat` is list
flatten.  JS objects with possibly-absent fields are modelled with
`Option`-typed fields (an absent field is `none`, which is distinct from
`some false` exactly as `undefined` is distinct from `false` in JS).
-/

/-! ## Data model (from `src/agents/types.ts`) -/

/-- Per-chunk audio metadata (`AudioInput.metadata` in `types.ts`). -/
structure AudioChunkMeta where
  duration : Option Nat
  sampleRate : Option Nat
  channels : Option Nat
deriving DecidableEq, Repr

/-- `AudioInput` from `types.ts`: a single audio buffer with MIME type. -/
structure AudioInput where
  audioBuffer : List Nat
  mimeType : String
  metadata : Option AudioChunkMeta
deriving DecidableEq, Repr

/-- One element of `BatchAudioInput.audioChunks`. -/
structure AudioChunk where
  audioBuffer : List Nat
  mimeType : String
  timestamp : Option Nat
  metadata : Option AudioChunkMeta
deriving DecidableEq, Repr

/-- `processingMode` of `BatchAudioInput.batchMetadata`. -/
inductive ProcessingMode
  | sequential
  | parallel
  | merged
deriving DecidableEq, Repr

/-- `BatchAudioInput.batchMetadata` from `types.ts`. -/
structure BatchMetadata where
  totalDuration : Option Nat
  processingMode : Option ProcessingMode
deriving DecidableEq, Repr

/-- `BatchAudioInput` from `types.ts`. -/
structure BatchAudioInput where
  audioChunks : List AudioChunk
  batchMetadata : Option BatchMetadata
deriving DecidableEq, Repr

/-- The `input` union of `AgentRunInput`: `string | AudioInput | BatchAudioInput`. -/
inductive InputV
  | text (s : String)
  | audio (a : AudioInput)
  | batchAudio (b : BatchAudioInput)
deriving DecidableEq, Repr

/-- The routing destination of `SupervisorDecisionSchema` (`z.enum(["direct","rag"])`). -/
inductive Route
  | direct
  | rag
deriving DecidableEq, Repr

/-- `SupervisorDecision` from `types.ts`. -/
structure SupervisorDecision where
  route : Route
  query : String
deriving DecidableEq, Repr

/-- A parsed JSON value, the output of JS `JSON.parse` on the routing model's text. -/
inductive Json
  | str (s : String)
  | num (n : Int)
  | bool (b : Bool)
  | null
  | arr (items : List Json)
  | obj (fields : List (String × Json))

/-- First-match field lookup on a parsed JSON object. -/
def lookupField (fields : List (String × Json)) (key : String) : Option Json :=
  match fields with
  | [] => none
  | (k, v) :: rest => if k = key then some v else lookupField rest key

/-- `SupervisorDecisionSchema.parse` from `types.ts`: a zod object requiring
`route ∈ \x7b"direct","rag"\x7d` and a string `query`; `none` models a thrown
`ZodError`. -/
def supervisorDecisionSchemaParse (j : Json) : Option SupervisorDecision :=
  match j with
  | .obj fields =>
    match lookupField fields "route", lookupField fields "query" with
    | some (.str r), some (.str q) =>
      if r = "direct" then some ⟨Route.direct, q⟩
      else if r = "rag" then some ⟨Route.rag, q⟩
      else none
    | _, _ => none
  | _ => none

/-- Outcome of the whole `try`-block parse chain in `supervisorAgent.run`:
`JSON.parse` failure is `Except.error`, a parsed value that fails
`SupervisorDecisionSchema.parse` is `none`. -/
def decodeDecision (raw : Except Unit Json) : Option SupervisorDecision :=
  match raw with
  | .error _ => none
  | .ok j => supervisorDecisionSchemaParse j

/-! ## External-call trace and oracle -/

/-- One external call made by the core; recorded in order of issue. -/
inductive ExtCall
  | createConv
  | routingModel (prompt : String)
  | subAgentModel (agent : String) (input : String) (vectorStoreIds : List String)
  | transcribe (bytes : List Nat) (mimeType : String)
deriving DecidableEq, Repr

/-- Environment of external services: transcription outcomes, the routing
model's (already text-extracted and JSON-parsed) reply, sub-agent model
replies, presence of `OPENAI_API_KEY`, and the disposable conversation id. -/
structure Oracle where
  apiKey : Bool
  transcribeFn : List Nat → String → Except String String
  routingRaw : Except Unit Json
  modelText : String → String
  newConvId : String

/-! ## Agent results (from `types.ts` / `supervisorAgent.ts`) -/

/-- `audioTranscriptionMetadata` assembled by the supervisor.  Every field is
optional: the supervisor builds this object literally, and for text input it
stays the empty object `\x7b\x7d`. -/
structure AudioMeta where
  audioProcessed : Option Bool
  audioType : Option String
  mimeType : Option String
  metadata : Option AudioChunkMeta
  chunksCount : Option Nat
  processingMode : Option String
  totalDuration : Option Nat
deriving DecidableEq, Repr

/-- The `\x7b\x7d` value that `audioTranscriptionMetadata` is initialized to
(and keeps, for string input). -/
def emptyAudioMeta : AudioMeta :=
  ⟨none, none, none, none, none, none, none⟩

/-- `supervisorMetadata` attached to the result's `raw` by the supervisor. -/
structure SupervisorMetadata where
  routingDecision : SupervisorDecision
  audioTranscription : AudioMeta
  originalInputType : String
deriving DecidableEq, Repr

/-- The `raw` payload of an `AgentRunResult`: the provider response (opaque,
modelled by its output text) possibly enriched with `supervisorMetadata`. -/
structure RawPayload where
  modelRaw : String
  supervisorMetadata : Option SupervisorMetadata
deriving DecidableEq, Repr

/-- `AgentRunResult` from `types.ts`. -/
structure AgentResult where
  conversationId : String
  text : String
  raw : RawPayload
deriving DecidableEq, Repr

/-- `params` as used by the agents: only `vectorStoreIds` is consulted. -/
structure Params where
  vectorStoreIds : Option (List String)
deriving DecidableEq, Repr

/-! ## Error messages (verbatim from the sources) -/

def ragMissingStoresMsg : String :=
  "RAG agent requires params.vectorStoreIds: string[]"

def ragInvalidInputMsg : String :=
  "RAGAgent only accepts string inputs. Audio inputs should be processed by supervisor agent first."

def directInvalidInputMsg : String :=
  "DirectAgent only accepts string inputs. Audio inputs should be processed by supervisor agent first."

def emptyTranscriptMsg : String :=
  "Audio transcription resulted in empty text"

/-- The wrapper added by `processAudioInput`'s catch block. -/
def audioFailWrap (inner : String) : String :=
  "Audio transcription failed: " ++ inner

def noChunksMsg : String :=
  "No audio chunks could be successfully transcribed"

/-- The wrapper added by `processBatchAudioInput`'s catch block. -/
def batchFailWrap (inner : String) : String :=
  "Batch audio transcription failed: " ++ inner

/-! ## Sub-agents (`directAgent.ts`, `ragAgent.ts`) -/

/-- Whether an `input` value is a JS string (`typeof input === 'string'`). -/
def isTextInput : InputV → Bool
  | .text _ => true
  | _ => false

/-- `ragAgent.run`: rejects non-string input, requires a non-empty
`vectorStoreIds`, then makes exactly one model call with the file_search
tool.  Returns the result (or thrown error message) and the model calls
made. -/
def ragRun (o : Oracle) (conversationId : String) (input : InputV)
    (vectorStoreIds : Option (List String)) :
    Except String AgentResult × List ExtCall :=
  match input with
  | .text s =>
    match vectorStoreIds with
    | some (id :: ids) =>
      (.ok ⟨conversationId, o.modelText s, ⟨o.modelText s, none⟩⟩,
       [ExtCall.subAgentModel "rag" s (id :: ids)])
    | _ => (.error ragMissingStoresMsg, [])
  | _ => (.error ragInvalidInputMsg, [])

/-- `directAgent.run`: rejects non-string input, then makes exactly one
tool-free model call. -/
def directRun (o : Oracle) (conversationId : String) (input : InputV) :
    Except String AgentResult × List ExtCall :=
  match input with
  | .text s =>
    (.ok ⟨conversationId, o.modelText s, ⟨o.modelText s, none⟩⟩,
     [ExtCall.subAgentModel "direct" s []])
  | _ => (.error directInvalidInputMsg, [])

/-! ## JS string primitives used by the pipeline -/

/-- JS `String.prototype.trim()`: strip leading and trailing whitespace. -/
def jsTrim (s : String) : String :=
  String.mk (((s.data.dropWhile Char.isWhitespace).reverse.dropWhile Char.isWhitespace).reverse)

/-- JS `Array.prototype.join(' ')` on an array of strings. -/
def joinSpace : List String → String
  | [] => ""
  | [t] => t
  | t :: rest => t ++ " " ++ joinSpace rest

/-! ## Audio processing (`processAudioInput`, `processBatchAudioInput`) -/

/-- `processAudioInput` from `supervisorAgent.ts`: one transcription call;
an empty-after-trim transcript raises the empty-transcript error, but that
throw happens inside the surrounding `try`, so the catch block re-wraps it
(like any transcription error) with the `Audio transcription failed:`
prefix before it propagates. -/
def processAudioInput (o : Oracle) (a : AudioInput) :
    Except String String × List ExtCall :=
  if !o.apiKey then
    (.error "OPENAI_API_KEY is required for audio processing", [])
  else
    match o.transcribeFn a.audioBuffer a.mimeType with
    | .error e => (.error (audioFailWrap e), [ExtCall.transcribe a.audioBuffer a.mimeType])
    | .ok t =>
      if jsTrim t == "" then
        (.error (audioFailWrap emptyTranscriptMsg), [ExtCall.transcribe a.audioBuffer a.mimeType])
      else
        (.ok t, [ExtCall.transcribe a.audioBuffer a.mimeType])

/-- `batchInput.batchMetadata?.processingMode || 'sequential'`. -/
def resolveMode (b : BatchAudioInput) : ProcessingMode :=
  match b.batchMetadata with
  | some md => md.processingMode.getD ProcessingMode.sequential
  | none => ProcessingMode.sequential

/-- Order on indexed parallel results used by
`results.sort((a, b) => a.index - b.index)`. -/
def keyLE (a b : Nat × String) : Prop := a.1 ≤ b.1

/-- Strict version of `keyLE`, used to pin the sorted list down uniquely. -/
def keyLT (a b : Nat × String) : Prop := a.1 < b.1

instance : DecidableRel keyLE := fun a b => Nat.decLe a.1 b.1

instance : IsTotal (Nat × String) keyLE := ⟨fun a b => Nat.le_total a.1 b.1⟩

instance : IsTrans (Nat × String) keyLE := ⟨fun _ _ _ hab hbc => Nat.le_trans hab hbc⟩

instance : IsAntisymm (Nat × String) keyLT :=
  ⟨fun _ _ h₁ h₂ => absurd h₂ (Nat.lt_asymm h₁)⟩

/-- Parallel-mode assembly from `processBatchAudioInput`: sort the per-chunk
results by original chunk index, project the transcripts, drop the
empty-after-trim ones. -/
def parallelAssemble (results : List (Nat × String)) : List String :=
  ((results.insertionSort keyLE).map Prod.snd).filter (fun t => !(jsTrim t == ""))

/-- Sequential-mode accumulation: per-chunk failures and empty-after-trim
transcripts are skipped, the rest are kept in order. -/
def collectSequential : List (Except String String) → List String
  | [] => []
  | .error _ :: rest => collectSequential rest
  | .ok t :: rest =>
    if jsTrim t == "" then collectSequential rest else t :: collectSequential rest

/-- Common tail of `processBatchAudioInput`: fail with the (wrapped)
no-chunks error when nothing survived, else join with spaces and trim. -/
def finishTranscripts (transcripts : List String) : Except String String :=
  match transcripts with
  | [] => .error (batchFailWrap noChunksMsg)
  | _ => .ok (jsTrim (joinSpace transcripts))

/-- `processBatchAudioInput` from `supervisorAgent.ts`.  Parallel mode maps
every chunk to one transcription call, replaces per-chunk failures by `""`,
and assembles with `parallelAssemble`; merged mode concatenates all chunk
buffers and makes a single call with the first chunk's MIME type (no call
when the chunk list is empty); sequential mode walks the chunks in order
skipping failures.  Errors escaping the `try` are wrapped with the batch
prefix. -/
def processBatchAudioInput (o : Oracle) (b : BatchAudioInput) :
    Except String String × List ExtCall :=
  if !o.apiKey then
    (.error "OPENAI_API_KEY is required for batch audio processing", [])
  else
    match resolveMode b with
    | .parallel =>
      let results := b.audioChunks.enum.map
        (fun p =>
          (p.1, match o.transcribeFn p.2.audioBuffer p.2.mimeType with
                | .ok t => t
                | .error _ => ""))
      (finishTranscripts (parallelAssemble results),
       b.audioChunks.map (fun c => ExtCall.transcribe c.audioBuffer c.mimeType))
    | .merged =>
      match b.audioChunks with
      | [] => (.error (batchFailWrap noChunksMsg), [])
      | first :: _ =>
        let mergedBuffer := (b.audioChunks.map (fun c => c.audioBuffer)).flatten
        match o.transcribeFn mergedBuffer first.mimeType with
        | .error e => (.error (batchFailWrap e), [ExtCall.transcribe mergedBuffer first.mimeType])
        | .ok t =>
          (finishTranscripts (if jsTrim t == "" then [] else [t]),
           [ExtCall.transcribe mergedBuffer first.mimeType])
    | .sequential =>
      (finishTranscripts
        (collectSequential (b.audioChunks.map (fun c => o.transcribeFn c.audioBuffer c.mimeType))),
       b.audioChunks.map (fun c => ExtCall.transcribe c.audioBuffer c.mimeType))

/-! ## Supervisor routing (`supervisorAgent.run`) -/

/-- The fixed system part of the routing prompt. -/
def routingSystem : String :=
  String.intercalate " "
    ["You are a router that decides how to handle user input.",
     "If the user asks to use uploaded files or knowledge base, or if vector store ids are provided, choose 'rag'.",
     "Otherwise choose 'direct'.",
     "Return ONLY a compact JSON object with fields: \x7b\"route\":\"direct\"|\"rag\",\"query\":\"...\"\x7d.",
     "Do not add explanations."]

/-- JS truthiness of `vectorStoreIds?.length`. -/
def hasStores : Option (List String) → Bool
  | some (_ :: _) => true
  | _ => false

/-- The routing prompt built by `supervisorAgent.run`. -/
def routingPrompt (processedInput : String) (vectorStoreIds : Option (List String)) : String :=
  String.intercalate "\n"
    [routingSystem,
     "User Input: " ++ processedInput,
     (match vectorStoreIds with
      | some (id :: ids) => "Vector Stores Provided: " ++ String.intercalate "," (id :: ids)
      | _ => "Vector Stores Provided: none"),
     "Output JSON now."]

/-- The deterministic fallback decision
`\x7b route: vectorStoreIds?.length ? "rag" : "direct", query: processedInput \x7d`. -/
def heuristicDecision (vectorStoreIds : Option (List String)) (processedInput : String) :
    SupervisorDecision :=
  ⟨if hasStores vectorStoreIds then Route.rag else Route.direct, processedInput⟩

/-- The string stored in `supervisorMetadata.originalInputType`. -/
def inputTypeString : InputV → String
  | .text _ => "text"
  | .audio _ => "audio"
  | .batchAudio _ => "batch_audio"

/-- The string stored in `audioTranscriptionMetadata.processingMode`. -/
def modeString : ProcessingMode → String
  | .sequential => "sequential"
  | .parallel => "parallel"
  | .merged => "merged"

/-- Normalization step of `supervisorAgent.run`: text passes through with
the metadata object left `\x7b\x7d`; audio and batch audio are transcribed
and described. -/
def normalizeInput (o : Oracle) (input : InputV) :
    Except String (String × AudioMeta) × List ExtCall :=
  match input with
  | .text s => (.ok (s, emptyAudioMeta), [])
  | .audio a =>
    match processAudioInput o a with
    | (.error e, cs) => (.error e, cs)
    | (.ok t, cs) =>
      (.ok (t, { emptyAudioMeta with
                  audioProcessed := some true
                  audioType := some "single"
                  mimeType := some a.mimeType
                  metadata := a.metadata }), cs)
  | .batchAudio b =>
    match processBatchAudioInput o b with
    | (.error e, cs) => (.error e, cs)
    | (.ok t, cs) =>
      (.ok (t, { emptyAudioMeta with
                  audioProcessed := some true
                  audioType := some "batch"
                  chunksCount := some b.audioChunks.length
                  processingMode := some (modeString (resolveMode b))
                  totalDuration := b.batchMetadata.bind (fun md => md.totalDuration) }), cs)

/-- Routing decision actually used: the parsed model reply when the
`try`-block succeeds, else the heuristic fallback. -/
def routeDecision (o : Oracle) (vectorStoreIds : Option (List String))
    (processedInput : String) : SupervisorDecision :=
  (decodeDecision o.routingRaw).getD (heuristicDecision vectorStoreIds processedInput)

/-- Dispatch step: `rag` goes to `ragAgent.run` with `\x7bvectorStoreIds\x7d`,
anything else to `directAgent.run`. -/
def dispatchAgent (o : Oracle) (conversationId : String) (d : SupervisorDecision)
    (vectorStoreIds : Option (List String)) :
    Except String AgentResult × List ExtCall :=
  if d.route = Route.rag then
    ragRun o conversationId (.text d.query) vectorStoreIds
  else
    directRun o conversationId (.text d.query)

/-- `supervisorAgent.run` (the enhanced supervisor): normalize, classify
(one disposable conversation plus one routing model call), dispatch, and
enrich the sub-agent result with `supervisorMetadata`. -/
def supervisorRun (o : Oracle) (conversationId : String) (input : InputV)
    (params : Params) : Except String AgentResult × List ExtCall :=
  let vsIds := params.vectorStoreIds
  match normalizeInput o input with
  | (.error e, cs) => (.error e, cs)
  | (.ok (processedInput, audioMeta), cs) =>
    let routingCalls := [ExtCall.createConv, ExtCall.routingModel (routingPrompt processedInput vsIds)]
    let decision := routeDecision o vsIds processedInput
    match dispatchAgent o conversationId decision vsIds with
    | (.error e, ds) => (.error e, cs ++ routingCalls ++ ds)
    | (.ok r, ds) =>
      (.ok { r with raw := { r.raw with
               supervisorMetadata := some ⟨decision, audioMeta, inputTypeString input⟩ } },
       cs ++ routingCalls ++ ds)

/-! ## Streaming endpoint (`POST /agents/supervisor/stream` in `routes/agents.ts`) -/

/-- One item yielded by `parseStreamingResponse` in
`realtimeAudioService.ts`: it only ever yields `text_delta` or `final`
events. -/
inductive GenItem
  | delta
  | finalItem
deriving DecidableEq, Repr

/-- SSE event names written by the stream handler. -/
inductive SEvent
  | conversation
  | transcript
  | delta
  | finalEv
  | errorEv
  | done
deriving DecidableEq, Repr

/-- The SSE event written for a yielded generation item. -/
def genToSEvent : GenItem → SEvent
  | .delta => SEvent.delta
  | .finalItem => SEvent.finalEv

/-- One request against the streaming endpoint, abstracted to the outcomes
of its stages: whether a multipart audio file is present, the outcome of
`processAudio` (transcription plus the generation fetch, both awaited
before the `transcript` event), the body `input` text, the outcome of the
`processTextWithContext` fetch on the text path, the generation items
yielded before the stream ends or fails, and whether iteration fails
mid-stream. -/
structure StreamRun where
  hasFile : Bool
  audioSetup : Except String String
  textInput : Option String
  genSetup : Except String Unit
  items : List GenItem
  iterFails : Bool

/-- Whether an `Except` outcome is a failure. -/
def exceptFailed : Except String α → Bool
  | .error _ => true
  | .ok _ => false

/-- The ordered SSE event sequence emitted by the
`/agents/supervisor/stream` handler for one request. -/
def streamHandlerEvents (sc : StreamRun) : List SEvent :=
  SEvent.conversation ::
    (if sc.hasFile then
      match sc.audioSetup with
      | .error _ => [SEvent.errorEv]
      | .ok _ =>
        SEvent.transcript ::
          (sc.items.map genToSEvent ++ (if sc.iterFails then [SEvent.errorEv] else [SEvent.done]))
    else
      match sc.textInput with
      | none => [SEvent.errorEv]
      | some s =>
        if s.isEmpty then [SEvent.errorEv]
        else
          match sc.genSetup with
          | .error _ => [SEvent.errorEv]
          | .ok _ =>
            sc.items.map genToSEvent ++ (if sc.iterFails then [SEvent.errorEv] else [SEvent.done]))

/-- Whether one of the pipeline stages (transcription, generation setup, or
mid-stream generation) of the request fails. -/
def stageFails (sc : StreamRun) : Bool :=
  if sc.hasFile then
    exceptFailed sc.audioSetup || sc.iterFails
  else
    match sc.textInput with
    | none => false
    | some s => if s.isEmpty then false else exceptFailed sc.genSetup || sc.iterFails

/-! ## Event-driven batch accumulator (`RealtimeAudioService`) -/

/-- The `context` captured by `startBatch`. -/
structure BatchContext where
  conversationId : Option String
  vectorStoreIds : Option (List String)
  previousResponseId : Option String
deriving DecidableEq, Repr

/-- The mutable batch fields of `RealtimeAudioService`. -/
structure RealtimeBatchState where
  batchAudioBuffer : List (List Nat)
  batchMimeType : Option String
  batchContext : Option BatchContext
deriving DecidableEq, Repr

/-- Field values at construction time. -/
def initialBatchState : RealtimeBatchState := ⟨[], none, none⟩

/-- `startBatch`: unconditionally clears the buffer and installs the new
MIME type and context, whatever the previous state was. -/
def startBatch (mimeType : String) (context : BatchContext)
    (_s : RealtimeBatchState) : RealtimeBatchState :=
  ⟨[], some mimeType, some context⟩

/-- `appendAudioChunk`: push one chunk onto the batch buffer. -/
def appendAudioChunk (chunk : List Nat) (s : RealtimeBatchState) : RealtimeBatchState :=
  { s with batchAudioBuffer := s.batchAudioBuffer ++ [chunk] }

/-- The guard error thrown by `commitBatch`. -/
def commitGuardMsg : String := "No batch started or batch is empty"

/-- `commitBatch`: fail on an empty buffer, missing (or falsy-empty) MIME
type, or missing context; otherwise transcribe the concatenated buffer,
start the follow-up text processing, and only then reset the batch fields.
On any failure the error propagates and the state is left as it was. -/
def commitBatch (transcribeFn : List Nat → String → Except String String)
    (processTextFn : String → BatchContext → Except String Unit)
    (s : RealtimeBatchState) : Except String (String × RealtimeBatchState) :=
  match s.batchAudioBuffer, s.batchMimeType, s.batchContext with
  | _ :: _, some m, some c =>
    if m.isEmpty then .error commitGuardMsg
    else
      match transcribeFn s.batchAudioBuffer.flatten m with
      | .error e => .error e
      | .ok transcript =>
        match processTextFn transcript c with
        | .error e => .error e
        | .ok _ => .ok (transcript, ⟨[], none, none⟩)
  | _, _, _ => .error commitGuardMsg

/-! ## Shared helper lemmas and probe environments -/

/-- A benign environment for concrete witness runs. -/
def probeOracle : Oracle :=
  ⟨true, fun _ _ => Except.ok "t", Except.error (), fun _ => "reply", "conv_tmp"⟩

/-- Folding `appendAudioChunk` extends the buffer on the right. -/
theorem appendAll_buffer (chunks : List (List Nat)) (st : RealtimeBatchState) :
    (chunks.foldl (fun s ch => appendAudioChunk ch s) st).batchAudioBuffer =
      st.batchAudioBuffer ++ chunks := by
  induction chunks generalizing st with
  | nil => simp
  | cons c cs ih =>
    rw [List.foldl_cons, ih]
    simp [appendAudioChunk, List.append_assoc]

/-! ## C8 : sub-agent input guards -/

/-- C8: the RAG sub-agent called with string input but an absent or empty
`vectorStoreIds` fails with `MissingVectorStores` and makes no model call
(empty call trace); and every non-string input to either sub-agent is
rejected with the typed invalid-input error before any model call. -/
theorem subagents_guard_before_model_call :
    (∀ (o : Oracle) (cid s : String),
      ragRun o cid (.text s) none = (.error ragMissingStoresMsg, []) ∧
      ragRun o cid (.text s) (some []) = (.error ragMissingStoresMsg, [])) ∧
    (∀ (o : Oracle) (cid : String) (inp : InputV) (vs : Option (List String)),
      isTextInput inp = false → ragRun o cid inp vs = (.error ragInvalidInputMsg, [])) ∧
    (∀ (o : Oracle) (cid : String) (inp : InputV),
      isTextInput inp = false → directRun o cid inp = (.error directInvalidInputMsg, [])) := by
  refine ⟨fun o cid s => ⟨rfl, rfl⟩, ?_, ?_⟩
  · intro o cid inp vs h
    cases inp with
    | text s => simp [isTextInput] at h
    | audio a => rfl
    | batchAudio b => rfl
  · intro o cid inp h
    cases inp with
    | text s => simp [isTextInput] at h
    | audio a => rfl
    | batchAudio b => rfl

/-- Witness for C8 at concrete inputs. -/
theorem subagents_guard_before_model_call_witness :
    ragRun probeOracle "conv_1" (.text "q") none = (.error ragMissingStoresMsg, []) ∧
    ragRun probeOracle "conv_1" (.audio ⟨[1], "audio/webm", none⟩) none =
      (.error ragInvalidInputMsg, []) ∧
    directRun probeOracle "conv_1" (.audio ⟨[1], "audio/webm", none⟩) =
      (.error directInvalidInputMsg, []) :=
  ⟨(subagents_guard_before_model_call.1 probeOracle "conv_1" "q").1,
   subagents_guard_before_model_call.2.1 probeOracle "conv_1"
     (.audio ⟨[1], "audio/webm", none⟩) none rfl,
   subagents_guard_before_model_call.2.2 probeOracle "conv_1"
     (.audio ⟨[1], "audio/webm", none⟩) rfl⟩

/-! ## C10 : batch accumulator auto-reset -/

/-- C10: `startBatch` unconditionally clears the buffer, MIME type and
context, so chunks appended to a previous uncommitted batch never leak into
a newly started batch; a successful `commitBatch` resets the fields again;
and `commitBatch` on a never-started or empty batch fails with the typed
guard error instead of processing. -/
theorem batch_accumulator_auto_reset :
    (∀ (m : String) (c : BatchContext) (s : RealtimeBatchState),
      startBatch m c s = ⟨[], some m, some c⟩) ∧
    (∀ (m : String) (c : BatchContext) (s : RealtimeBatchState) (chunks : List (List Nat)),
      (chunks.foldl (fun st ch => appendAudioChunk ch st) (startBatch m c s)).batchAudioBuffer
        = chunks) ∧
    (∀ (tf : List Nat → String → Except String String)
       (pf : String → BatchContext → Except String Unit)
       (s : RealtimeBatchState) (t : String) (s' : RealtimeBatchState),
      commitBatch tf pf s = .ok (t, s') → s' = initialBatchState) ∧
    (∀ (tf : List Nat → String → Except String String)
       (pf : String → BatchContext → Except String Unit),
      commitBatch tf pf initialBatchState = .error commitGuardMsg) ∧
    (∀ (tf : List Nat → String → Except String String)
       (pf : String → BatchContext → Except String Unit)
       (m : String) (c : BatchContext) (s : RealtimeBatchState),
      commitBatch tf pf (startBatch m c s) = .error commitGuardMsg) := by
  refine ⟨fun m c s => rfl, ?_, ?_, fun tf pf => rfl, fun tf pf m c s => rfl⟩
  · intro m c s chunks
    rw [appendAll_buffer]
    rfl
  · intro tf pf s t s' h
    rcases s with ⟨buf, mt, ctx⟩
    rcases buf with _ | ⟨b, bs⟩
    · simp [commitBatch] at h
    rcases mt with _ | m
    · simp [commitBatch] at h
    rcases ctx with _ | c
    · simp [commitBatch] at h
    simp only [commitBatch] at h
    split at h
    · cases h
    · split at h
      · cases h
      · split at h
        · cases h
        · simp only [Except.ok.injEq, Prod.mk.injEq] at h
          exact h.2.symm

def c10Transcribe : List Nat → String → Except String String := fun _ _ => .ok "hi"

def c10Process : String → BatchContext → Except String Unit := fun _ _ => .ok ()

def c10Ctx : BatchContext := ⟨some "conv_1", none, none⟩

def c10State : RealtimeBatchState :=
  appendAudioChunk [1] (startBatch "audio/webm" c10Ctx initialBatchState)

/-- Witness for C10: a concrete committed batch comes back reset. -/
theorem batch_accumulator_auto_reset_witness :
    (⟨[], none, none⟩ : RealtimeBatchState) = initialBatchState :=
  batch_accumulator_auto_reset.2.2.1 c10Transcribe c10Process c10State "hi"
    ⟨[], none, none⟩ (by rfl)

/-! ## C6 : sequential mode skips failing chunks -/

/-- Environment for the three-chunk sequential scenario: chunk `[0]`
transcribes to `"hello"`, chunk `[1]` fails, chunk `[2]` transcribes to
`"world"`. -/
def c6Oracle : Oracle :=
  ⟨true,
   fun bytes _ =>
     if bytes = [0] then .ok "hello"
     else if bytes = [2] then .ok "world"
     else .error "chunk failed",
   Except.error (), fun _ => "reply", "conv_tmp"⟩

/-- Same scenario but the middle chunk yields whitespace-only text. -/
def c6WsOracle : Oracle :=
  ⟨true,
   fun bytes _ =>
     if bytes = [0] then .ok "hello"
     else if bytes = [2] then .ok "world"
     else .ok "   ",
   Except.error (), fun _ => "reply", "conv_tmp"⟩

/-- Three-chunk batch in (default) sequential mode. -/
def c6Batch : BatchAudioInput :=
  ⟨[⟨[0], "audio/webm", none, none⟩, ⟨[1], "audio/webm", none, none⟩,
    ⟨[2], "audio/webm", none, none⟩], none⟩

/-- C6: in sequential mode an erroring chunk is skipped without surfacing
an exception and the remaining chunks are still processed in order
(dropping an erroring chunk from the outcome list does not change the
collected transcripts); concretely, with chunk 2 of 3 failing and chunks 1
and 3 yielding `"hello"` and `"world"`, the result is `"hello world"`, and
likewise when chunk 2 yields whitespace-only text. -/
theorem sequential_skips_failed_chunks :
    (∀ (xs : List (Except String String)) (e : String) (ys : List (Except String String)),
      collectSequential (xs ++ Except.error e :: ys) = collectSequential (xs ++ ys)) ∧
    (processBatchAudioInput c6Oracle c6Batch).1 = .ok "hello world" ∧
    (processBatchAudioInput c6WsOracle c6Batch).1 = .ok "hello world" := by
  refine ⟨?_, by rfl, by rfl⟩
  intro xs e ys
  induction xs with
  | nil => rfl
  | cons x xs ih =>
    cases x with
    | error e' => simpa [collectSequential] using ih
    | ok t =>
      by_cases h : jsTrim t == ""
      · simpa [collectSequential, h] using ih
      · simpa [collectSequential, h] using ih

/-! ## C7 : merged mode makes exactly one concatenated call -/

/-- C7: in merged mode with a non-empty chunk list, exactly one
transcription call is made, on the in-order concatenation of all chunk
buffers with the first chunk's MIME type; the concatenation's length is
the sum of the chunk byte lengths; and with an empty chunk list merged
mode fails with the no-chunks-transcribed error without any call. -/
theorem merged_mode_single_concatenated_call :
    (∀ (o : Oracle) (b : BatchAudioInput) (first : AudioChunk) (rest : List AudioChunk),
      o.apiKey = true → resolveMode b = .merged → b.audioChunks = first :: rest →
      (processBatchAudioInput o b).2 =
        [ExtCall.transcribe ((b.audioChunks.map (fun c => c.audioBuffer)).flatten)
          first.mimeType]) ∧
    (∀ (bufs : List (List Nat)), bufs.flatten.length = (bufs.map List.length).sum) ∧
    (∀ (o : Oracle) (b : BatchAudioInput),
      o.apiKey = true → resolveMode b = .merged → b.audioChunks = [] →
      processBatchAudioInput o b = (.error (batchFailWrap noChunksMsg), [])) := by
  refine ⟨?_, fun bufs => List.length_flatten bufs, ?_⟩
  · intro o b first rest hk hm hc
    simp [processBatchAudioInput, hk, hm, hc]
    split <;> rfl
  · intro o b hk hm hc
    simp [processBatchAudioInput, hk, hm, hc]

def c7Batch : BatchAudioInput :=
  ⟨[⟨[0, 1], "audio/webm", none, none⟩, ⟨[2], "audio/ogg", none, none⟩],
   some ⟨none, some ProcessingMode.merged⟩⟩

/-- Witness for C7: two chunks of lengths 2 and 1 produce one call on the
3-byte concatenation with the first chunk's MIME type; the empty merged
batch fails without a call. -/
theorem merged_mode_single_concatenated_call_witness :
    (processBatchAudioInput probeOracle c7Batch).2 =
      [ExtCall.transcribe [0, 1, 2] "audio/webm"] ∧
    ([[0, 1], [2]] : List (List Nat)).flatten.length = 3 ∧
    processBatchAudioInput probeOracle ⟨[], some ⟨none, some ProcessingMode.merged⟩⟩ =
      (.error (batchFailWrap noChunksMsg), []) :=
  ⟨merged_mode_single_concatenated_call.1 probeOracle c7Batch
      ⟨[0, 1], "audio/webm", none, none⟩ [⟨[2], "audio/ogg", none, none⟩] rfl rfl rfl,
   merged_mode_single_concatenated_call.2.1 [[0, 1], [2]],
   merged_mode_single_concatenated_call.2.2 probeOracle
      ⟨[], some ⟨none, some ProcessingMode.merged⟩⟩ rfl rfl rfl⟩

/-! ## Supervisor text path -/

/-- Shape of `supervisorRun` on text input: no normalization calls, one
disposable conversation plus one routing model call, then dispatch. -/
theorem supervisorRun_text (o : Oracle) (cid s : String) (p : Params) :
    supervisorRun o cid (.text s) p =
      (match dispatchAgent o cid (routeDecision o p.vectorStoreIds s) p.vectorStoreIds with
       | (.error e, ds) =>
         (.error e,
          [ExtCall.createConv, ExtCall.routingModel (routingPrompt s p.vectorStoreIds)] ++ ds)
       | (.ok r, ds) =>
         (.ok { r with raw := { r.raw with
                  supervisorMetadata :=
                    some ⟨routeDecision o p.vectorStoreIds s, emptyAudioMeta, "text"⟩ } },
          [ExtCall.createConv, ExtCall.routingModel (routingPrompt s p.vectorStoreIds)] ++ ds)) := by
  simp only [supervisorRun, normalizeInput, inputTypeString]
  split <;> simp_all

/-! ## C2 : heuristic fallback on malformed routing output -/

/-- C2: for every Supervisor.run invocation (text, single-audio, or
batch-audio) whose normalization succeeds, when the routing reply fails
JSON parsing or schema validation the run does not raise an error; it
uses the deterministic heuristic decision (`rag` exactly when
`vectorStoreIds` is non-empty, else `direct`) with the normalized input
text unchanged as the query. -/
theorem supervisor_heuristic_fallback (o : Oracle) (cid : String)
    (input : InputV) (vs : Option (List String)) (pin : String)
    (meta : AudioMeta) (cs : List ExtCall)
    (hnorm : normalizeInput o input = (.ok (pin, meta), cs))
    (hmal : decodeDecision o.routingRaw = none) :
    (∃ r calls, supervisorRun o cid input ⟨vs⟩ = (.ok r, calls) ∧
      r.raw.supervisorMetadata =
        some ⟨heuristicDecision vs pin, meta, inputTypeString input⟩) ∧
    (heuristicDecision vs pin).query = pin ∧
    ((heuristicDecision vs pin).route = Route.rag ↔ hasStores vs = true) := by
  have hd : routeDecision o vs pin = heuristicDecision vs pin := by
    simp [routeDecision, hmal]
  refine ⟨?_, rfl, ?_⟩
  · simp only [supervisorRun, hnorm, hd]
    rcases vs with _ | ⟨_ | ⟨id, ids⟩⟩
    · exact ⟨_, _, rfl, rfl⟩
    · exact ⟨_, _, rfl, rfl⟩
    · exact ⟨_, _, rfl, rfl⟩
  · rcases vs with _ | ⟨_ | ⟨id, ids⟩⟩ <;>
      simp [heuristicDecision, hasStores]

/-- Normalization metadata of the concrete single-audio witness run. -/
def c2AudioMeta : AudioMeta :=
  { emptyAudioMeta with
      audioProcessed := some true
      audioType := some "single"
      mimeType := some "audio/webm"
      metadata := none }

/-- Witness for C2 at concrete runs: a text invocation and a single-audio
invocation (the probe oracle's routing reply is a JSON parse failure, its
transcription yields `"t"`). -/
theorem supervisor_heuristic_fallback_witness :
    (heuristicDecision none "Hello").query = "Hello" ∧
    ((heuristicDecision none "Hello").route = Route.rag ↔ hasStores none = true) ∧
    (heuristicDecision (some ["vs_1"]) "t").query = "t" :=
  ⟨(supervisor_heuristic_fallback probeOracle "conv_1" (.text "Hello") none "Hello"
      emptyAudioMeta [] rfl rfl).2.1,
   (supervisor_heuristic_fallback probeOracle "conv_1" (.text "Hello") none "Hello"
      emptyAudioMeta [] rfl rfl).2.2,
   (supervisor_heuristic_fallback probeOracle "conv_1"
      (.audio ⟨[7], "audio/webm", none⟩) (some ["vs_1"]) "t" c2AudioMeta
      [ExtCall.transcribe [7] "audio/webm"] rfl rfl).2.1⟩

/-! ## C4 : metadata for text input -/

/-- C4 (amended): for every successful text run, the attached metadata has
`originalInputType = "text"` and the audio-transcription object is the
empty object, whose `audioProcessed` field is absent (`none`), not
`false`. -/
theorem supervisor_text_metadata (o : Oracle) (cid s : String) (p : Params)
    (r : AgentResult) (calls : List ExtCall)
    (h : supervisorRun o cid (.text s) p = (.ok r, calls)) :
    r.raw.supervisorMetadata =
      some ⟨routeDecision o p.vectorStoreIds s, emptyAudioMeta, "text"⟩ ∧
    (r.raw.supervisorMetadata.map fun m => m.originalInputType) = some "text" ∧
    (r.raw.supervisorMetadata.map fun m => m.audioTranscription.audioProcessed) =
      some none := by
  rw [supervisorRun_text] at h
  split at h
  · simp_all
  · next r' ds heq =>
    simp only [Prod.mk.injEq, Except.ok.injEq] at h
    obtain ⟨hr, -⟩ := h
    subst hr
    exact ⟨rfl, rfl, rfl⟩

def c4Oracle : Oracle :=
  ⟨true, fun _ _ => Except.ok "x", Except.error (), fun _ => "resp", "conv_tmp"⟩

/-- C4 (counterexample): on the concrete text run `"Hello"` the supervisor
succeeds and records `audioTranscription` as the empty object: its
`audioProcessed` field is absent (`none`), which is not the value `false`
the claim asserts. -/
theorem supervisor_text_audioProcessed_absent :
    ((supervisorRun c4Oracle "conv_1" (.text "Hello") ⟨none⟩).1.toOption.bind
        (fun r => r.raw.supervisorMetadata)).map
        (fun m => m.audioTranscription.audioProcessed) = some none ∧
    (some (none : Option Bool)) ≠ some (some false) :=
  ⟨rfl, by simp⟩

def c4Result : AgentResult :=
  ⟨"conv_2", "resp", ⟨"resp", some ⟨⟨Route.direct, "hi"⟩, emptyAudioMeta, "text"⟩⟩⟩

def c4Calls : List ExtCall :=
  [ExtCall.createConv, ExtCall.routingModel (routingPrompt "hi" none),
   ExtCall.subAgentModel "direct" "hi" []]

/-- Witness for C4's amended theorem at a concrete successful run. -/
theorem supervisor_text_metadata_witness :
    c4Result.raw.supervisorMetadata =
      some ⟨routeDecision c4Oracle none "hi", emptyAudioMeta, "text"⟩ ∧
    (c4Result.raw.supervisorMetadata.map fun m => m.audioTranscription.audioProcessed) =
      some none :=
  ⟨(supervisor_text_metadata c4Oracle "conv_2" "hi" ⟨none⟩ c4Result c4Calls rfl).1,
   (supervisor_text_metadata c4Oracle "conv_2" "hi" ⟨none⟩ c4Result c4Calls rfl).2.2⟩

/-! ## C1 : no degradation to direct on rag with empty stores -/

/-- Environment whose routing reply is valid JSON selecting `rag`. -/
def c1Oracle : Oracle :=
  ⟨true, fun _ _ => Except.ok "t",
   Except.ok (.obj [("route", .str "rag"), ("query", .str "find docs")]),
   fun _ => "resp", "conv_tmp"⟩

/-- C1 (counterexample): with a routing decision that selects `rag` while
no `vectorStoreIds` are provided, the supervisor does not degrade to
`direct`: it dispatches to the RAG agent, and the whole run fails with the
RAG agent's missing-vector-stores error (a degraded run would have
succeeded through the direct agent). -/
theorem supervisor_rag_empty_stores_counterexample :
    supervisorRun c1Oracle "conv_1" (.text "use my files") ⟨none⟩ =
      (.error ragMissingStoresMsg,
       [ExtCall.createConv, ExtCall.routingModel (routingPrompt "use my files" none)]) :=
  rfl

/-- C1 (amended): whenever the parsed routing decision selects `rag` and
`vectorStoreIds` is absent or empty, `supervisorRun` forwards to the RAG
agent, which rejects the call: the run fails with `MissingVectorStores`
and no sub-agent model call appears in the trace (only the disposable
conversation and the routing call). -/
theorem supervisor_rag_empty_stores_rejected (o : Oracle) (cid s : String)
    (vs : Option (List String)) (d : SupervisorDecision)
    (hns : hasStores vs = false)
    (hdec : decodeDecision o.routingRaw = some d)
    (hroute : d.route = Route.rag) :
    supervisorRun o cid (.text s) ⟨vs⟩ =
      (.error ragMissingStoresMsg,
       [ExtCall.createConv, ExtCall.routingModel (routingPrompt s vs)]) := by
  have hd : routeDecision o vs s = d := by
    simp [routeDecision, hdec]
  rw [supervisorRun_text]
  simp only [hd]
  rcases vs with _ | ⟨_ | ⟨id, ids⟩⟩
  · simp [dispatchAgent, hroute, ragRun]
  · simp [dispatchAgent, hroute, ragRun]
  · simp [hasStores] at hns

/-- Witness for C1's amended theorem at the concrete environment. -/
theorem supervisor_rag_empty_stores_rejected_witness :
    supervisorRun c1Oracle "conv_2" (.text "q") ⟨some []⟩ =
      (.error ragMissingStoresMsg,
       [ExtCall.createConv, ExtCall.routingModel (routingPrompt "q" (some []))]) :=
  supervisor_rag_empty_stores_rejected c1Oracle "conv_2" "q" (some [])
    ⟨Route.rag, "find docs"⟩ rfl rfl rfl

/-! ## C3 : empty transcript on single audio -/

/-- Environment whose transcription returns whitespace-only text. -/
def c3Oracle : Oracle :=
  ⟨true, fun _ _ => Except.ok "   ", Except.error (), fun _ => "resp", "conv_tmp"⟩

def c3Audio : AudioInput := ⟨[7], "audio/webm", none⟩

/-- C3 (counterexample): on a single-audio input whose transcription is
empty after trimming, the run fails — but the surfaced error is the
empty-transcript message re-wrapped by the catch block with the
transcription-failed prefix, not the bare `EmptyTranscript` error the
claim says is distinguished from `TranscriptionFailed`. -/
theorem supervisor_empty_transcript_counterexample :
    (supervisorRun c3Oracle "conv_1" (.audio c3Audio) ⟨none⟩).1 =
      .error (audioFailWrap emptyTranscriptMsg) ∧
    audioFailWrap emptyTranscriptMsg ≠ emptyTranscriptMsg := by
  refine ⟨rfl, ?_⟩
  decide

/-- C3 (amended): on a single-audio input whose transcription succeeds but
is empty after trimming, `supervisorRun` fails with the wrapped
empty-transcript error, and the trace contains only the transcription
call: no routing classification (and no disposable conversation, no
sub-agent call) happens. -/
theorem supervisor_empty_transcript_no_routing (o : Oracle) (cid : String)
    (a : AudioInput) (p : Params) (t : String)
    (hk : o.apiKey = true)
    (ht : o.transcribeFn a.audioBuffer a.mimeType = Except.ok t)
    (he : (jsTrim t == "") = true) :
    supervisorRun o cid (.audio a) p =
      (.error (audioFailWrap emptyTranscriptMsg),
       [ExtCall.transcribe a.audioBuffer a.mimeType]) := by
  simp [supervisorRun, normalizeInput, processAudioInput, hk, ht, he]

/-- Witness for C3's amended theorem at the concrete environment. -/
theorem supervisor_empty_transcript_no_routing_witness :
    supervisorRun c3Oracle "conv_2" (.audio c3Audio) ⟨none⟩ =
      (.error (audioFailWrap emptyTranscriptMsg),
       [ExtCall.transcribe [7] "audio/webm"]) :=
  supervisor_empty_transcript_no_routing c3Oracle "conv_2" c3Audio ⟨none⟩ "   "
    rfl rfl rfl

/-! ## C5 : parallel mode is completion-order independent -/

/-- The index-sorted list is strictly sorted when the indices are distinct. -/
theorem sorted_keyLT_of_nodup (rs : List (Nat × String))
    (hn : (rs.map Prod.fst).Nodup) :
    (rs.insertionSort keyLE).Sorted keyLT := by
  have hs : (rs.insertionSort keyLE).Sorted keyLE := List.sorted_insertionSort keyLE rs
  have hp : ((rs.insertionSort keyLE).map Prod.fst).Perm (rs.map Prod.fst) :=
    (List.perm_insertionSort keyLE rs).map Prod.fst
  have hn' : ((rs.insertionSort keyLE).map Prod.fst).Nodup := hp.nodup_iff.mpr hn
  have hpn : (rs.insertionSort keyLE).Pairwise (fun a b => a.1 ≠ b.1) :=
    List.pairwise_map.mp hn'
  have := List.Pairwise.and hs hpn
  exact this.imp (fun h => Nat.lt_of_le_of_ne h.1 h.2)

/-- Permuted result lists with the same distinct indices sort identically. -/
theorem insertionSort_perm_eq (rs₁ rs₂ : List (Nat × String))
    (hperm : rs₁.Perm rs₂) (hnodup : (rs₁.map Prod.fst).Nodup) :
    rs₁.insertionSort keyLE = rs₂.insertionSort keyLE := by
  have hp : (rs₁.insertionSort keyLE).Perm (rs₂.insertionSort keyLE) :=
    ((List.perm_insertionSort keyLE rs₁).trans hperm).trans
      (List.perm_insertionSort keyLE rs₂).symm
  have hn₂ : (rs₂.map Prod.fst).Nodup := (hperm.map Prod.fst).nodup_iff.mp hnodup
  exact List.eq_of_perm_of_sorted hp
    (sorted_keyLT_of_nodup rs₁ hnodup) (sorted_keyLT_of_nodup rs₂ hn₂)

/-- C5: the assembled parallel-mode transcript depends only on the set of
(index, transcript) pairs, not on the order in which the per-chunk calls
completed: any permutation of the indexed results (with the distinct
original indices) is re-sorted to the same list, so the filtered and
joined output is identical; moreover the batch processor's parallel branch
is exactly this assembly applied to the indexed per-chunk outcomes. -/
theorem parallel_completion_order_invariant (rs₁ rs₂ : List (Nat × String))
    (hperm : rs₁.Perm rs₂) (hnodup : (rs₁.map Prod.fst).Nodup) :
    parallelAssemble rs₁ = parallelAssemble rs₂ ∧
    finishTranscripts (parallelAssemble rs₁) =
      finishTranscripts (parallelAssemble rs₂) ∧
    (∀ (o : Oracle) (b : BatchAudioInput), o.apiKey = true →
      resolveMode b = ProcessingMode.parallel →
      (processBatchAudioInput o b).1 =
        finishTranscripts (parallelAssemble (b.audioChunks.enum.map
          (fun p => (p.1, match o.transcribeFn p.2.audioBuffer p.2.mimeType with
                          | .ok t => t
                          | .error _ => ""))))) := by
  have he : parallelAssemble rs₁ = parallelAssemble rs₂ := by
    unfold parallelAssemble
    rw [insertionSort_perm_eq rs₁ rs₂ hperm hnodup]
  refine ⟨he, by rw [he], ?_⟩
  intro o b hk hm
  simp [processBatchAudioInput, hk, hm]

/-- Witness for C5: the two-chunk results delivered in swapped completion
order assemble to the same transcript, and a concrete parallel batch run
factors through the assembly. -/
theorem parallel_completion_order_invariant_witness :
    parallelAssemble [(0, "hello"), (1, "world")] =
      parallelAssemble [(1, "world"), (0, "hello")] ∧
    finishTranscripts (parallelAssemble [(0, "hello"), (1, "world")]) =
      finishTranscripts (parallelAssemble [(1, "world"), (0, "hello")]) :=
  ⟨(parallel_completion_order_invariant [(0, "hello"), (1, "world")]
      [(1, "world"), (0, "hello")] (List.Perm.swap _ _ _) (by decide)).1,
   (parallel_completion_order_invariant [(0, "hello"), (1, "world")]
      [(1, "world"), (0, "hello")] (List.Perm.swap _ _ _) (by decide)).2.1⟩

/-! ## C9 : error and done are exclusive terminal events -/

theorem genToSEvent_ne_errorEv (g : GenItem) : genToSEvent g ≠ SEvent.errorEv := by
  cases g <;> simp [genToSEvent]

theorem genToSEvent_ne_done (g : GenItem) : genToSEvent g ≠ SEvent.done := by
  cases g <;> simp [genToSEvent]

theorem errorEv_not_mem_gen (items : List GenItem) :
    SEvent.errorEv ∉ items.map genToSEvent := by
  simp only [List.mem_map]
  rintro ⟨g, -, hg⟩
  exact genToSEvent_ne_errorEv g hg

theorem done_not_mem_gen (items : List GenItem) :
    SEvent.done ∉ items.map genToSEvent := by
  simp only [List.mem_map]
  rintro ⟨g, -, hg⟩
  exact genToSEvent_ne_done g hg

/-- Facts about an event list of the shape
`pre ++ generation events ++ [error]`. -/
theorem tail_err_facts (pre : List SEvent) (items : List GenItem)
    (hpreE : SEvent.errorEv ∉ pre) (hpreD : SEvent.done ∉ pre) :
    (pre ++ (items.map genToSEvent ++ [SEvent.errorEv])).count SEvent.errorEv = 1 ∧
    (pre ++ (items.map genToSEvent ++ [SEvent.errorEv])).getLast? = some SEvent.errorEv ∧
    SEvent.done ∉ pre ++ (items.map genToSEvent ++ [SEvent.errorEv]) := by
  refine ⟨?_, ?_, ?_⟩
  · rw [List.count_append, List.count_append]
    rw [List.count_eq_zero.mpr hpreE, List.count_eq_zero.mpr (errorEv_not_mem_gen items)]
    rfl
  · rw [← List.append_assoc]
    exact List.getLast?_concat _
  · simp only [List.mem_append, List.mem_singleton]
    rintro (h | (h | h))
    · exact hpreD h
    · exact done_not_mem_gen items h
    · exact SEvent.noConfusion h

/-- In an event list of the shape `pre ++ generation events ++ [done]`
no error event occurs. -/
theorem tail_done_facts (pre : List SEvent) (items : List GenItem)
    (hpreE : SEvent.errorEv ∉ pre) :
    SEvent.errorEv ∉ pre ++ (items.map genToSEvent ++ [SEvent.done]) := by
  simp only [List.mem_append, List.mem_singleton]
  rintro (h | (h | h))
  · exact hpreE h
  · exact errorEv_not_mem_gen items h
  · exact SEvent.noConfusion h

/-- C9: in the streaming protocol, whenever a stage (transcription,
generation setup, or mid-stream generation) fails, exactly one `error`
event is emitted and it is the last event of the stream (nothing follows,
in particular no `done`); more generally an `error` event is always final
and unique, and a stream that emits `done` never emits `error`. -/
theorem stream_error_single_terminal (sc : StreamRun) :
    (stageFails sc = true →
      (streamHandlerEvents sc).count SEvent.errorEv = 1 ∧
      (streamHandlerEvents sc).getLast? = some SEvent.errorEv ∧
      SEvent.done ∉ streamHandlerEvents sc) ∧
    (SEvent.errorEv ∈ streamHandlerEvents sc →
      (streamHandlerEvents sc).count SEvent.errorEv = 1 ∧
      (streamHandlerEvents sc).getLast? = some SEvent.errorEv) ∧
    (SEvent.done ∈ streamHandlerEvents sc → SEvent.errorEv ∉ streamHandlerEvents sc) := by
  obtain ⟨hf, aset, tin, gset, items, itf⟩ := sc
  cases hf
  case true =>
    cases aset with
    | error e =>
      have hfacts := tail_err_facts [SEvent.conversation] [] (by decide) (by decide)
      exact ⟨fun _ => hfacts, fun _ => ⟨hfacts.1, hfacts.2.1⟩, fun hd => absurd hd hfacts.2.2⟩
    | ok t =>
      cases itf
      case true =>
        have hfacts := tail_err_facts [SEvent.conversation, SEvent.transcript] items
          (by decide) (by decide)
        exact ⟨fun _ => hfacts, fun _ => ⟨hfacts.1, hfacts.2.1⟩, fun hd => absurd hd hfacts.2.2⟩
      case false =>
        have hne := tail_done_facts [SEvent.conversation, SEvent.transcript] items (by decide)
        refine ⟨fun h => ?_, fun hmem => absurd hmem hne, fun _ => hne⟩
        simp [stageFails, exceptFailed] at h
  case false =>
    cases tin with
    | none =>
      have hfacts := tail_err_facts [SEvent.conversation] [] (by decide) (by decide)
      exact ⟨fun _ => hfacts, fun _ => ⟨hfacts.1, hfacts.2.1⟩, fun hd => absurd hd hfacts.2.2⟩
    | some s =>
      cases hs : s.isEmpty
      case true =>
        have hev : streamHandlerEvents ⟨false, aset, some s, gset, items, itf⟩ =
            [SEvent.conversation] ++ ([].map genToSEvent ++ [SEvent.errorEv]) := by
          simp [streamHandlerEvents, hs]
        rw [hev]
        have hfacts := tail_err_facts [SEvent.conversation] [] (by decide) (by decide)
        exact ⟨fun _ => hfacts, fun _ => ⟨hfacts.1, hfacts.2.1⟩, fun hd => absurd hd hfacts.2.2⟩
      case false =>
        cases gset with
        | error e =>
          have hev : streamHandlerEvents ⟨false, aset, some s, .error e, items, itf⟩ =
              [SEvent.conversation] ++ ([].map genToSEvent ++ [SEvent.errorEv]) := by
            simp [streamHandlerEvents, hs]
          rw [hev]
          have hfacts := tail_err_facts [SEvent.conversation] [] (by decide) (by decide)
          exact ⟨fun _ => hfacts, fun _ => ⟨hfacts.1, hfacts.2.1⟩, fun hd => absurd hd hfacts.2.2⟩
        | ok u =>
          cases itf
          case true =>
            have hev : streamHandlerEvents ⟨false, aset, some s, .ok u, items, true⟩ =
                [SEvent.conversation] ++ (items.map genToSEvent ++ [SEvent.errorEv]) := by
              simp [streamHandlerEvents, hs]
            rw [hev]
            have hfacts := tail_err_facts [SEvent.conversation] items (by decide) (by decide)
            exact ⟨fun _ => hfacts, fun _ => ⟨hfacts.1, hfacts.2.1⟩,
                   fun hd => absurd hd hfacts.2.2⟩
          case false =>
            have hev : streamHandlerEvents ⟨false, aset, some s, .ok u, items, false⟩ =
                [SEvent.conversation] ++ (items.map genToSEvent ++ [SEvent.done]) := by
              simp [streamHandlerEvents, hs]
            rw [hev]
            have hne := tail_done_facts [SEvent.conversation] items (by decide)
            refine ⟨fun h => ?_, fun hmem => absurd hmem hne, fun _ => hne⟩
            simp [stageFails, hs, exceptFailed] at h

/-- A request whose generation stream fails mid-stream after one delta. -/
def c9FailRun : StreamRun :=
  ⟨true, .ok "transcribed", none, .ok (), [GenItem.delta], true⟩

/-- A text request that completes normally. -/
def c9OkRun : StreamRun :=
  ⟨false, .ok "unused", some "hi", .ok (), [GenItem.delta, GenItem.finalItem], false⟩

/-- Witness for C9: a concrete failing stream emits exactly one terminal
`error` and no `done`; a concrete successful stream emits no `error`. -/
theorem stream_error_single_terminal_witness :
    ((streamHandlerEvents c9FailRun).count SEvent.errorEv = 1 ∧
     (streamHandlerEvents c9FailRun).getLast? = some SEvent.errorEv ∧
     SEvent.done ∉ streamHandlerEvents c9FailRun) ∧
    SEvent.errorEv ∉ streamHandlerEvents c9OkRun :=
  ⟨(stream_error_single_terminal c9FailRun).1 (by decide),
   (stream_error_single_terminal c9OkRun).2.2 (by decide)⟩
